import Mathlib

/-!
# Scenario Execution Engine — verification development

A shallow embedding of the HEAS web playground's scenario execution
engine: the JavaScript value model the validator works over, the error
taxonomy (`docs/js/errors.js`), the config validator and result-shape
check (`docs/js/validation.js`), the categorical-metadata normaliser and
the scenario enumerator (`buildScenarioList` and helpers from the main
playground module), the dispatcher's run/terminate paths
(`docs/js/runtime.js`) and the run orchestrator's dispatch loop
(`runSimulation` in the main playground module).

Modelling conventions:
* JavaScript numbers are modelled as exact rationals extended with
  `NaN`/`±Infinity` (`JSNum`); the programs verified here only perform
  comparisons and small-integer arithmetic, where IEEE doubles and
  rationals agree.
* JavaScript objects are insertion-ordered association lists; property
  assignment overwrites in place or appends (`setFieldList`), matching
  JS object semantics. The prototype chain is not modelled.
* Asynchronous calls are modelled by their resolved/rejected outcome
  (`Except`); wall-clock reads and the cooperative cancellation flag are
  oracles indexed by the loop iteration at which the code samples them.
-/

/-- A JavaScript number: NaN, the two infinities, or a finite value
(modelled as an exact rational). -/
inductive JSNum where
  | nan
  | posInf
  | negInf
  | num (q : ℚ)
deriving DecidableEq, Repr

namespace JSNum

/-- JS truthiness of a number: `NaN` and `±0` are falsy. -/
def toBool : JSNum → Bool
  | nan => false
  | posInf => true
  | negInf => true
  | num q => q ≠ 0

/-- The JS `>` comparison: any comparison with NaN is false. -/
def gtb : JSNum → JSNum → Bool
  | nan, _ => false
  | _, nan => false
  | num a, num b => b < a
  | posInf, posInf => false
  | posInf, _ => true
  | _, posInf => false
  | negInf, _ => false
  | num _, negInf => true

/-- The JS `<` comparison: any comparison with NaN is false. -/
def ltb (a b : JSNum) : Bool := gtb b a

/-- `Number.isFinite`. -/
def isFiniteB : JSNum → Bool
  | num _ => true
  | _ => false

end JSNum

/-- A JavaScript value. Objects are insertion-ordered association
lists. Function values never occur in the data the engine handles and
are omitted. -/
inductive JSVal where
  | undefined
  | null
  | bool (b : Bool)
  | num (n : JSNum)
  | str (s : String)
  | arr (elems : List JSVal)
  | obj (fields : List (String × JSVal))
deriving Repr

/-- First binding of a key in an association list, `undefined` when
absent (JS property read on a plain object). -/
def lookupField : List (String × JSVal) → String → JSVal
  | [], _ => .undefined
  | (k', v) :: rest, k => if k' = k then v else lookupField rest k

/-- Whether an association list binds a key (`hasOwnProperty`). -/
def hasField : List (String × JSVal) → String → Bool
  | [], _ => false
  | (k', _) :: rest, k => k' = k || hasField rest k

/-- JS property assignment on an object: overwrite the first binding in
place, append when the key is new. -/
def setFieldList : List (String × JSVal) → String → JSVal → List (String × JSVal)
  | [], k, v => [(k, v)]
  | (k', v') :: rest, k, v =>
      if k' = k then (k, v) :: rest else (k', v') :: setFieldList rest k v

namespace JSVal

/-- `x.f` property read; `undefined` on primitives (no prototype
chain) and on nullish values (so it also models `x?.f`). -/
def getField : JSVal → String → JSVal
  | .obj fields, k => lookupField fields k
  | _, _ => .undefined

/-- JS truthiness. -/
def truthy : JSVal → Bool
  | .undefined => false
  | .null => false
  | .bool b => b
  | .num n => n.toBool
  | .str s => s ≠ ""
  | .arr _ => true
  | .obj _ => true

/-- `x == null` in the loose sense used by `??` and `?.`. -/
def isNullish : JSVal → Bool
  | .undefined => true
  | .null => true
  | _ => false

/-- `typeof x === "object"` (true for objects, arrays and `null`). -/
def isObjectType : JSVal → Bool
  | .obj _ => true
  | .arr _ => true
  | .null => true
  | _ => false

/-- `x && typeof x === "object"`: a truthy object, i.e. an object or an
array (every object is truthy; `null` is excluded by truthiness). -/
def isObjectLike : JSVal → Bool
  | .obj _ => true
  | .arr _ => true
  | _ => false

end JSVal

/-- JS whitespace for `String.prototype.trim` / `Number` coercion (the
ASCII portion; exotic Unicode space characters are not modelled). -/
def isJsWhitespace (c : Char) : Bool :=
  c = ' ' || c = '\t' || c = '\n' || c = '\r' || c = '\x0b' || c = '\x0c'

/-- `s.trim()`: strip leading and trailing whitespace. -/
def jsTrim (s : String) : String :=
  String.mk (((s.toList.dropWhile isJsWhitespace).reverse.dropWhile isJsWhitespace).reverse)

/-- Decimal rendering of a rational, used by `String(number)`. Exact for
integers (the only case the engine's data exercises); non-integers are
printed with up to 17 fractional digits, an approximation of JS's
shortest-round-trip float printing. -/
def decimalOfRat (q : ℚ) : String :=
  let sign := if q < 0 then "-" else ""
  let a := |q|
  let ip : ℕ := a.floor.toNat
  let rec fracDigits : ℚ → ℕ → List Char
    | _, 0 => []
    | f, fuel + 1 =>
        if f = 0 then []
        else
          let f10 := f * 10
          let d : ℕ := f10.floor.toNat
          (Char.ofNat (d + 48)) :: fracDigits (f10 - f10.floor) fuel
  let frac := fracDigits (a - a.floor) 17
  if frac.isEmpty then sign ++ toString ip
  else sign ++ toString ip ++ "." ++ String.mk frac

/-- `String(n)` for a JS number. -/
def jsNumToString : JSNum → String
  | .nan => "NaN"
  | .posInf => "Infinity"
  | .negInf => "-Infinity"
  | .num q => decimalOfRat q

mutual

/-- `String(x)`: JS string conversion (arrays join their elements with
commas, rendering `undefined`/`null` elements as empty; plain objects
print as `[object Object]`). -/
def jsToString : JSVal → String
  | .undefined => "undefined"
  | .null => "null"
  | .bool b => if b then "true" else "false"
  | .num n => jsNumToString n
  | .str s => s
  | .arr xs => String.intercalate "," (jsArrElemStrings xs)
  | .obj _ => "[object Object]"

/-- Element strings for array-to-string conversion. -/
def jsArrElemStrings : List JSVal → List String
  | [] => []
  | .undefined :: xs => "" :: jsArrElemStrings xs
  | .null :: xs => "" :: jsArrElemStrings xs
  | x :: xs => jsToString x :: jsArrElemStrings xs

end

/-- Digits of a numeral string in a given base, `none` when a character
is out of range. Accumulates into `acc`. -/
def digitsValue? (base : ℕ) : List Char → ℕ → Option ℕ
  | [], acc => some acc
  | c :: cs, acc =>
      let d :=
        if '0' ≤ c ∧ c ≤ '9' then some (c.toNat - '0'.toNat)
        else if 'a' ≤ c ∧ c ≤ 'f' then some (c.toNat - 'a'.toNat + 10)
        else if 'A' ≤ c ∧ c ≤ 'F' then some (c.toNat - 'A'.toNat + 10)
        else none
      match d with
      | some d => if d < base then digitsValue? base cs (base * acc + d) else none
      | none => none

/-- The decimal core of JS `Number(string)` (no sign): integer part,
optional fraction, optional exponent; at least one digit overall. -/
def parseDecCore (cs : List Char) : Option ℚ :=
  let splitOn (p : Char → Bool) (l : List Char) : List Char × Option (List Char) :=
    match l.findIdx? p with
    | some i => (l.take i, some (l.drop (i + 1)))
    | none => (l, none)
  let (mant, expPart) := splitOn (fun c => c = 'e' ∨ c = 'E') cs
  let (ipart, fpartOpt) := splitOn (fun c => c = '.') mant
  let fpart := fpartOpt.getD []
  if ipart.isEmpty ∧ fpart.isEmpty then none
  else
    match digitsValue? 10 ipart 0, digitsValue? 10 fpart 0 with
    | some ip, some fp =>
        let mantissa : ℚ := (ip : ℚ) + (fp : ℚ) / ((10 : ℚ) ^ fpart.length)
        match expPart with
        | none => some mantissa
        | some ecs =>
            let (esign, edigits) :=
              match ecs with
              | '+' :: rest => ((1 : ℤ), rest)
              | '-' :: rest => ((-1 : ℤ), rest)
              | rest => ((1 : ℤ), rest)
            if edigits.isEmpty then none
            else
              match digitsValue? 10 edigits 0 with
              | some e => some (mantissa * (10 : ℚ) ^ (esign * (e : ℤ)))
              | none => none
    | _, _ => none

/-- JS `Number(string)`: trim, empty string is 0, signed infinity,
`0x`/`0o`/`0b` radix literals, otherwise the signed decimal grammar;
anything else is NaN. -/
def strToNumber (s : String) : JSNum :=
  let t := jsTrim s
  if t = "" then .num 0
  else if t = "Infinity" ∨ t = "+Infinity" then .posInf
  else if t = "-Infinity" then .negInf
  else
    match t.toList with
    | '0' :: 'x' :: rest | '0' :: 'X' :: rest =>
        (match digitsValue? 16 rest 0 with
         | some n => if rest.isEmpty then .nan else .num n
         | none => .nan)
    | '0' :: 'o' :: rest | '0' :: 'O' :: rest =>
        (match digitsValue? 8 rest 0 with
         | some n => if rest.isEmpty then .nan else .num n
         | none => .nan)
    | '0' :: 'b' :: rest | '0' :: 'B' :: rest =>
        (match digitsValue? 2 rest 0 with
         | some n => if rest.isEmpty then .nan else .num n
         | none => .nan)
    | '+' :: rest => (match parseDecCore rest with | some q => .num q | none => .nan)
    | '-' :: rest => (match parseDecCore rest with | some q => .num (-q) | none => .nan)
    | cs => (match parseDecCore cs with | some q => .num q | none => .nan)

/-- JS `Number(x)` conversion. Arrays convert through their string form
(`Number(a) = Number(String(a))`); plain objects give NaN. -/
def jsToNumber : JSVal → JSNum
  | .undefined => .nan
  | .null => .num 0
  | .bool b => .num (if b then 1 else 0)
  | .num n => n
  | .str s => strToNumber s
  | .arr xs => strToNumber (jsToString (.arr xs))
  | .obj _ => .nan

/-! ## Error taxonomy (`docs/js/errors.js`) -/

/-- A structured engine error: dotted code, message, remediation hints
and a details map (`createError` always materialises all four
fields). -/
structure StructuredError where
  code : String
  message : String
  hints : List String
  details : List (String × JSVal)
deriving Repr

/-- `createError(code, message, hints = [], details = {})`. The source's
defensive re-checks (`Array.isArray(hints)`, `typeof details`) are
identities here because the embedded call sites always pass a list and
a map. -/
def createError (code message : String) (hints : List String := [])
    (details : List (String × JSVal) := []) : StructuredError :=
  { code := code, message := message, hints := hints, details := details }

/-- A value thrown by JS code: either an already-structured error or a
raw value. -/
inductive ThrownValue where
  | structured (e : StructuredError)
  | raw (v : JSVal)
deriving Repr

/-- `normalizeError(err, fallbackCode, fallbackMessage, fallbackHints)`:
an error that already carries string `code` and `message` fields is
passed through; anything else is wrapped under the fallback code with
the raw value recorded in the details. -/
def normalizeError (err : ThrownValue) (fallbackCode fallbackMessage : String)
    (fallbackHints : List String := []) : StructuredError :=
  match err with
  | .structured e => createError e.code e.message e.hints e.details
  | .raw v => createError fallbackCode fallbackMessage fallbackHints [("raw", .str (jsToString v))]

/-! ## Run limits (`docs/js/state.js`) -/

/-- `RUN_LIMITS`. The two fields the validator compares against JS
numbers are rationals; the scenario cap and the time budget are used as
a list index and a millisecond count and are naturals. The share/import
caps are not used by the engine paths embedded here. -/
structure RunLimits where
  maxSteps : ℚ
  maxEpisodes : ℚ
  maxScenarios : ℕ
  maxRunMs : ℕ
deriving Repr

/-- The shipped limits: 500 steps, 20 episodes, 64 scenarios, 45000 ms. -/
def RUN_LIMITS : RunLimits :=
  { maxSteps := 500, maxEpisodes := 20, maxScenarios := 64, maxRunMs := 45000 }

/-! ## Config validation (`docs/js/validation.js`) -/

/-- The run controls as `readControls` reads them off a config. -/
structure ControlsRead where
  steps : JSNum
  episodes : JSNum
  seed : JSNum
deriving Repr

/-- `readControls(config)`: nested `controls` object when present and
object-typed, else the V1 flat fields; NaNs for a non-object config. -/
def readControls (config : JSVal) : ControlsRead :=
  if ¬ (config.truthy ∧ config.isObjectType) then ⟨.nan, .nan, .nan⟩
  else
    let controls := config.getField "controls"
    if controls.truthy ∧ controls.isObjectType then
      ⟨jsToNumber (controls.getField "steps"),
       jsToNumber (controls.getField "episodes"),
       jsToNumber (controls.getField "seed")⟩
    else
      ⟨jsToNumber (config.getField "steps"),
       jsToNumber (config.getField "episodes"),
       jsToNumber (config.getField "seed")⟩

/-- One entry of a `STREAM_DEFS` parameter schema; validation only
consults `def.key` (labels and defaults are presentation data). -/
structure StreamDef where
  key : String
deriving Repr

/-- The JS `in` operator: membership among an object's own properties
(arrays own their index strings and `length`); applying it to a
primitive throws a `TypeError`. The prototype chain is not modelled;
the engine's parameter keys never collide with prototype members. -/
def jsInOp (key : String) (v : JSVal) : Except String Bool :=
  match v with
  | .obj fields => .ok (hasField fields key)
  | .arr xs =>
      .ok (key == "length" || (match key.toNat? with
        | some i => decide (i < xs.length)
        | none => false))
  | _ => .error "TypeError: cannot use the in operator on a non-object"

/-- Missing-parameter errors for one stream: `defs.forEach` probing
`def.key in params`, in declaration order. The `in` probe on a truthy
primitive `params` escapes as a TypeError. -/
def streamParamErrors (defs : List StreamDef) (params : JSVal)
    (layerIndex streamIndex : ℕ) : Except String (List StructuredError) :=
  match defs with
  | [] => .ok []
  | d :: rest => do
      let present ← jsInOp d.key params
      let tail ← streamParamErrors rest params layerIndex streamIndex
      .ok ((if present then [] else
        [createError "validation.param_missing"
          ("Required parameter '" ++ d.key ++ "' is missing.")
          ["Open the stream editor and save defaults."]
          [("path", .str ("layers[" ++ toString layerIndex ++ "][" ++ toString streamIndex
            ++ "].params." ++ d.key))]]) ++ tail)

/-- Validation of one stream entry: object check, type-tag check, then
required parameters against the stream type's schema. -/
def streamErrors (streamDefs : List (String × List StreamDef)) (stream : JSVal)
    (layerIndex streamIndex : ℕ) : Except String (List StructuredError) :=
  if ¬ stream.isObjectLike then
    .ok [createError "validation.stream_invalid" "Stream object is invalid."
      ["Reset the stream configuration."]
      [("path", .str ("layers[" ++ toString layerIndex ++ "][" ++ toString streamIndex ++ "]"))]]
  else
    let streamType := stream.getField "type"
    let isStr : Bool := match streamType with | .str _ => true | _ => false
    let typeErrs :=
      if ¬ (streamType.truthy && isStr) then
        [createError "validation.type_missing" "Stream type is missing."
          ["Select a stream type."]
          [("path", .str ("layers[" ++ toString layerIndex ++ "][" ++ toString streamIndex ++ "].type"))]]
      else []
    let defs := (streamDefs.lookup (jsToString streamType)).getD []
    let params := let p := stream.getField "params"; if p.truthy then p else .obj []
    do
      let perrs ← streamParamErrors defs params layerIndex streamIndex
      .ok (typeErrs ++ perrs)

/-- Validation of the streams of one layer, indexed in order. -/
def layerStreamErrors (streamDefs : List (String × List StreamDef))
    (streams : List JSVal) (layerIndex streamIndex : ℕ) :
    Except String (List StructuredError) :=
  match streams with
  | [] => .ok []
  | s :: rest => do
      let here ← streamErrors streamDefs s layerIndex streamIndex
      let tail ← layerStreamErrors streamDefs rest layerIndex (streamIndex + 1)
      .ok (here ++ tail)

/-- Validation of one layer: non-empty array of streams. -/
def layerErrors (streamDefs : List (String × List StreamDef)) (layer : JSVal)
    (layerIndex : ℕ) : Except String (List StructuredError) :=
  match layer with
  | .arr streams =>
      if streams.isEmpty then
        .ok [createError "validation.layer_empty" "Layer has no streams."
          ["Add at least one stream per layer."]
          [("path", .str ("layers[" ++ toString layerIndex ++ "]"))]]
      else layerStreamErrors streamDefs streams layerIndex 0
  | _ =>
      .ok [createError "validation.layer_empty" "Layer has no streams."
        ["Add at least one stream per layer."]
        [("path", .str ("layers[" ++ toString layerIndex ++ "]"))]]

/-- Validation of the layer list, indexed in order. -/
def layersErrors (streamDefs : List (String × List StreamDef))
    (layers : List JSVal) (layerIndex : ℕ) : Except String (List StructuredError) :=
  match layers with
  | [] => .ok []
  | l :: rest => do
      let here ← layerErrors streamDefs l layerIndex
      let tail ← layersErrors streamDefs rest (layerIndex + 1)
      .ok (here ++ tail)

/-- The control-field errors `validateConfigPayload` pushes before it
looks at the layer list, in push order. -/
def controlErrors (c : ControlsRead) (runLimits : RunLimits) : List StructuredError :=
  (if ¬ c.steps.isFiniteB ∨ c.steps.ltb (.num 1) then
    [createError "validation.steps_invalid" "Steps must be a positive number."
      ["Set steps >= 1."] [("path", .str "controls.steps")]] else []) ++
  (if c.steps.gtb (.num runLimits.maxSteps) then
    [createError "validation.steps_limit"
      ("Steps exceeds limit (" ++ jsNumToString (.num runLimits.maxSteps) ++ ").")
      ["Lower steps or split runs."] [("path", .str "controls.steps")]] else []) ++
  (if ¬ c.episodes.isFiniteB ∨ c.episodes.ltb (.num 1) then
    [createError "validation.episodes_invalid" "Episodes must be a positive number."
      ["Set episodes >= 1."] [("path", .str "controls.episodes")]] else []) ++
  (if c.episodes.gtb (.num runLimits.maxEpisodes) then
    [createError "validation.episodes_limit"
      ("Episodes exceeds limit (" ++ jsNumToString (.num runLimits.maxEpisodes) ++ ").")
      ["Lower episodes or run multiple batches."] [("path", .str "controls.episodes")]] else []) ++
  (if ¬ c.seed.isFiniteB then
    [createError "validation.cfg_invalid" "Seed must be numeric."
      ["Set a numeric seed value."] [("path", .str "controls.seed")]] else [])

/-- The single top-level error a non-object config yields. -/
def cfgInvalidError : StructuredError :=
  createError "validation.cfg_invalid" "Config is missing or invalid."
    ["Import a valid bundle or reset defaults."] [("path", .str "config")]

/-- The `validation.layers_invalid` error. -/
def layersInvalidError : StructuredError :=
  createError "validation.layers_invalid" "At least one layer is required."
    ["Add a layer before running."] [("path", .str "layers")]

/-- `validateConfigPayload(config, streamDefs, runLimits)`: a single
top-level error for a non-object config; otherwise all control-field
errors, then either `layers_invalid` (non-array or empty `layers`, an
early return) or the per-layer errors. The only way the source can
throw is the `in` probe on a truthy primitive `params`, surfaced here
as `Except.error`. -/
def validateConfigPayload (config : JSVal) (streamDefs : List (String × List StreamDef))
    (runLimits : RunLimits) : Except String (List StructuredError) :=
  if ¬ (config.truthy ∧ config.isObjectType) then .ok [cfgInvalidError]
  else
    let base := controlErrors (readControls config) runLimits
    match config.getField "layers" with
    | .arr layers =>
        if layers.isEmpty then .ok (base ++ [layersInvalidError])
        else do
          let lerrs ← layersErrors streamDefs layers 0
          .ok (base ++ lerrs)
    | _ => .ok (base ++ [layersInvalidError])

/-- `validateRunResultShape(result)`: a truthy object whose `episodes`
is an array of truthy objects, each with an array `per_step` and a
truthy object `episode`. -/
def validateRunResultShape (result : JSVal) : Bool :=
  result.isObjectLike &&
    (match result.getField "episodes" with
     | .arr eps => eps.all (fun ep =>
         ep.isObjectLike &&
         (match ep.getField "per_step" with | .arr _ => true | _ => false) &&
         (ep.getField "episode").isObjectLike)
     | _ => false)

/-! ## Categorical parameter metadata (playground module:
`parseNumberish`, `normalizeCategoryMeta`) -/

/-- `parseNumberish(value)`: a finite number passes through; a string is
trimmed and converted with `Number` when non-empty and finite;
everything else is `null` (here `none`). -/
def parseNumberish (v : JSVal) : Option ℚ :=
  match v with
  | .num n => (match n with | .num q => some q | _ => none)
  | .str s =>
      let trimmed := jsTrim s
      if trimmed = "" then none
      else (match strToNumber trimmed with | .num q => some q | _ => none)
  | _ => none

/-- The normalised shape `normalizeCategoryMeta` returns: the constant
`"category"` type tag, the (possibly defaulted) kind, trimmed non-empty
option labels, the current value and the option→value map. -/
structure CategoryMeta where
  type : String
  kind : JSVal
  options : List String
  value : String
  map : List (String × JSVal)
deriving Repr

/-- The source map used for the option→value map: `info.map` when it is
a truthy object (an array exposes its index strings and `length`). -/
def sourceMapOf (info : JSVal) : List (String × JSVal) :=
  match info.getField "map" with
  | .obj fields => fields
  | .arr xs => (xs.enum.map fun (i, x) => (toString i, x)) ++ [("length", .num (.num xs.length))]
  | _ => []

/-- The value `options.forEach` assigns for option `opt` at index `idx`:
the numeric parse of the source-map entry when one exists and parses,
the raw source-map entry when it does not parse, the ordinal index when
the option has no source-map entry. -/
def catMapValue (sourceMap : List (String × JSVal)) (opt : String) (idx : ℕ) : JSVal :=
  if hasField sourceMap opt then
    match parseNumberish (lookupField sourceMap opt) with
    | some q => .num (.num q)
    | none => lookupField sourceMap opt
  else .num (.num idx)

/-- The option→value map built by `options.forEach((opt, idx) => ...)`:
JS object assignment in index order (a duplicated option label
overwrites its earlier entry in place). -/
def buildCatMap (sourceMap : List (String × JSVal)) :
    List String → ℕ → List (String × JSVal) → List (String × JSVal)
  | [], _, acc => acc
  | opt :: rest, idx, acc =>
      buildCatMap sourceMap rest (idx + 1) (setFieldList acc opt (catMapValue sourceMap opt idx))

/-- The filtered option labels of `normalizeCategoryMeta`: the declared
`info.options` (when an array), each stringified and trimmed, empty
labels dropped. -/
def normOptionsRaw (info : JSVal) : List String :=
  ((match info.getField "options" with | .arr xs => xs | _ => []).map
    fun o => jsTrim (jsToString o)).filter (· ≠ "")

/-- The trimmed fallback label: `String(fallbackValue ?? info.value ?? "").trim()`. -/
def normFallbackLabel (info : JSVal) (fallbackValue : JSVal) : String :=
  jsTrim (jsToString
    (if fallbackValue.isNullish then
      (if (info.getField "value").isNullish then .str "" else info.getField "value")
    else fallbackValue))

/-- The final option labels: the fallback label is pushed as the only
option when no declared option survived and the label is non-empty. -/
def normOptions (info : JSVal) (fallbackValue : JSVal) : List String :=
  if (normOptionsRaw info).isEmpty ∧ normFallbackLabel info fallbackValue ≠ "" then
    [normFallbackLabel info fallbackValue]
  else normOptionsRaw info

/-- The current value: `String(info.value)` when it is among the
options, else `options[0] || fallbackLabel`. -/
def normValue (info : JSVal) (fallbackValue : JSVal) : String :=
  let options := normOptions info fallbackValue
  let infoValueStr := jsToString (info.getField "value")
  if options.contains infoValueStr then infoValueStr
  else match options with
    | o :: _ => if o ≠ "" then o else normFallbackLabel info fallbackValue
    | [] => normFallbackLabel info fallbackValue

/-- `normalizeCategoryMeta(info, fallbackValue)`. -/
def normalizeCategoryMeta (info : JSVal) (fallbackValue : JSVal) : CategoryMeta :=
  { type := "category"
    kind := if (info.getField "kind").truthy then info.getField "kind" else .str "condition"
    options := normOptions info fallbackValue
    value := normValue info fallbackValue
    map := buildCatMap (sourceMapOf info) (normOptions info fallbackValue) 0 [] }

/-! ## Scenario enumeration (playground module: `buildScenarioList`) -/

/-- One condition axis: the owning component, the parameter key and the
declared option labels. -/
structure Axis where
  componentId : String
  key : String
  options : List String
deriving DecidableEq, Repr

/-- The `componentId::parameterKey` override key of an axis. -/
def Axis.overrideKey (ax : Axis) : String := ax.componentId ++ "::" ++ ax.key

/-- A component as the enumerator sees it: its id and its raw `params`
and `paramMeta` objects. -/
structure Component where
  id : String
  params : JSVal
  paramMeta : JSVal
deriving Repr

/-- `Object.entries(component.paramMeta || {})` in insertion order
(an array enumerates its index entries; primitives have no entries). -/
def metaEntries (paramMeta : JSVal) : List (String × JSVal) :=
  match paramMeta with
  | .obj fields => fields
  | .arr xs => xs.enum.map fun (i, x) => (toString i, x)
  | _ => []

/-- `(normalized.kind || "condition") !== "condition"`: the normalised
kind is already defaulted, so this rejects exactly a kind that is not
the string `"condition"`. -/
def kindIsNotCondition (kind : JSVal) : Bool :=
  match (if kind.truthy then kind else JSVal.str "condition") with
  | .str s => s != "condition"
  | _ => true

/-- The condition axes `buildScenarioList` collects: every `category`
parameter of every component, in component order then meta-entry order,
keeping only kind `condition` with a non-empty option list. -/
def collectAxes (components : List Component) : List Axis :=
  components.flatMap fun c =>
    (metaEntries c.paramMeta).filterMap fun kv =>
      let info := kv.2
      if (match info.getField "type" with | .str s => s == "category" | _ => false) then
        let normalized := normalizeCategoryMeta info (c.params.getField kv.1)
        if kindIsNotCondition normalized.kind then none
        else if normalized.options.isEmpty then none
        else some ⟨c.id, kv.1, normalized.options⟩
      else none

/-- A scenario: its display label and its override map from
`componentId::parameterKey` to the chosen option label (a JS object,
modelled as an insertion-ordered association list). -/
structure Scenario where
  label : String
  overrides : List (String × String)
deriving DecidableEq, Repr

/-- Assignment into a scenario override map (JS object semantics). -/
def setOverride : List (String × String) → String → String → List (String × String)
  | [], k, v => [(k, v)]
  | (k', v') :: rest, k, v =>
      if k' = k then (k, v) :: rest else (k', v') :: setOverride rest k v

/-- First binding of an override key, if any. -/
def lookupOverride : List (String × String) → String → Option String
  | [], _ => none
  | (k', v) :: rest, k => if k' = k then some v else lookupOverride rest k

/-- The recursive `walk` of `buildScenarioList`: one scenario per path
through the axes' options, pushed in depth-first option order. -/
def scenarioWalk : List Axis → List (String × String) → List String → List Scenario
  | [], current, labelParts => [⟨String.intercalate ", " labelParts, current⟩]
  | ax :: rest, current, labelParts =>
      ax.options.flatMap fun opt =>
        scenarioWalk rest (setOverride current ax.overrideKey opt)
          (labelParts ++ [ax.componentId ++ "." ++ ax.key ++ "=" ++ opt])

/-- `buildScenarioList()`: the single `"Base"` scenario when no
condition axis exists, otherwise the full Cartesian product over the
collected axes. -/
def buildScenarioList (components : List Component) : List Scenario :=
  let categories := collectAxes components
  if categories.isEmpty then [⟨"Base", []⟩]
  else scenarioWalk categories [] []

/-! ## Execution dispatcher (`docs/js/runtime.js`) -/

/-- A resolved worker completion message: its `type` tag and payload. -/
structure WorkerResponse where
  type : String
  payload : JSVal
deriving Repr

/-- The observable state of a `PlaygroundRuntime` instance: whether a
worker is attached, the pending-request table (request ids in insertion
order) and the readiness flag. -/
structure RuntimeState where
  workerAlive : Bool
  pending : List String
  ready : Bool
  requestSeq : ℕ
deriving DecidableEq, Repr

/-- The error `terminate()` rejects every pending request with. -/
def cancelledRejection : StructuredError :=
  createError "runtime.cancelled" "Run cancelled by user."

/-- `terminate()`: kill the worker, reject every pending request with
`runtime.cancelled`, clear the pending table and drop readiness. Returns
the new state and the rejections issued, in table order. -/
def terminateRuntime (st : RuntimeState) : RuntimeState × List (String × StructuredError) :=
  ({ st with workerAlive := false, pending := [], ready := false },
   st.pending.map fun rid => (rid, cancelledRejection))

/-- The error `run` throws for a completion whose type is not
`run_ok`. -/
def unexpectedTypeError : StructuredError :=
  createError "runtime.failed" "Runtime returned an unexpected message type."

/-- The error `run` throws when the payload fails the shape check. -/
def badResultShapeError : StructuredError :=
  createError "runtime.bad_result_shape" "Runtime returned an invalid result shape."
    ["Check simulation payload and stream configuration."]

/-- `PlaygroundRuntime.run(payload)` after its `request` settles: a
rejection propagates; a completion that is not `run_ok` or whose
payload fails `validateRunResultShape` throws; everything thrown is
normalised by the surrounding catch under `runtime.failed` fallbacks,
which preserves the code of a structured error. A payload that passes
the shape check is returned unchanged. -/
def runtimeRun (settled : Except StructuredError WorkerResponse) : Except StructuredError JSVal :=
  let attempt : Except StructuredError JSVal :=
    match settled with
    | .error e => .error e
    | .ok resp =>
        if resp.type ≠ "run_ok" then .error unexpectedTypeError
        else if ¬ validateRunResultShape resp.payload then .error badResultShapeError
        else .ok resp.payload
  match attempt with
  | .ok v => .ok v
  | .error e =>
      .error (normalizeError (.structured e) "runtime.failed" "Simulation failed."
        ["Check stream parameters and scenario settings."])

/-! ## Run orchestrator (playground module: `runSimulation`) -/

/-- The `runtime.cancelled` error the dispatch loop throws when the
cooperative flag is set at a scenario boundary. -/
def cancelledRunError : StructuredError :=
  createError "runtime.cancelled" "Run cancelled by user."
    ["You can replay or adjust settings before running again."]

/-- The `runtime.limit_exceeded` error the dispatch loop throws when the
elapsed time exceeds `maxRunMs` at a scenario boundary. -/
def limitExceededError (maxRunMs : ℕ) : StructuredError :=
  createError "runtime.limit_exceeded" ("Run exceeded " ++ toString maxRunMs ++ "ms limit.")
    ["Reduce steps/episodes/scenarios.", "Run fewer condition combinations."]

/-- What the dispatch loop did: the labels of the scenarios it actually
dispatched to the backend, in order, and either the collected
`{label, result}` pairs or the error that aborted the loop. -/
structure DispatchResult where
  dispatched : List String
  outcome : Except StructuredError (List (String × JSVal))
deriving Repr

/-- The orchestrator's scenario loop. At the boundary before scenario
`i` it samples the cancellation flag (`cancelAt i`), then the elapsed
wall clock (`elapsedAt i`) against `maxRunMs`, throwing
`runtime.cancelled` resp. `runtime.limit_exceeded`; otherwise it
dispatches the scenario to the backend and appends `{label, result}`.
A backend failure aborts the loop (fail-fast). -/
def dispatchLoop (cancelAt : ℕ → Bool) (elapsedAt : ℕ → ℕ) (maxRunMs : ℕ)
    (backend : Scenario → Except StructuredError JSVal) :
    List Scenario → ℕ → List (String × JSVal) → DispatchResult
  | [], _, acc => ⟨[], .ok acc⟩
  | s :: rest, i, acc =>
      if cancelAt i then ⟨[], .error cancelledRunError⟩
      else if maxRunMs < elapsedAt i then ⟨[], .error (limitExceededError maxRunMs)⟩
      else
        match backend s with
        | .error e => ⟨[s.label], .error e⟩
        | .ok r =>
            let res := dispatchLoop cancelAt elapsedAt maxRunMs backend rest (i + 1)
              (acc ++ [(s.label, r)])
            ⟨s.label :: res.dispatched, res.outcome⟩

/-- The field values `runSimulation` computes and hands to
`buildRunResultV2` for the run artifact, plus the dispatch trace. -/
structure RunArtifact where
  episodes : JSVal
  warnings : List String
  errors : List StructuredError
  scenarioResults : List (String × JSVal)
  dispatched : List String
deriving Repr

/-- How a run of the scenario phase ends. -/
inductive RunOutcome where
  | noScenarios
  | failed (e : StructuredError)
  | noResults
  | done (a : RunArtifact)
deriving Repr

/-- The truncation warning recorded when the enumerated list was longer
than `maxScenarios`. -/
def truncationWarning (maxScenarios : ℕ) : String :=
  "Scenario count capped at " ++ toString maxScenarios ++ "."

/-- The `runtime.limit_exceeded` error attached to the artifact's
`errors` when the whole run overran the budget. -/
def overranBudgetError : StructuredError :=
  createError "runtime.limit_exceeded" "Runtime limit exceeded."

/-- The scenario phase of `runSimulation`, entered after validation
passes: enumerate, bail out when the list is empty, cap it at
`maxScenarios`, run the dispatch loop, and either normalise the thrown
error (the catch block, preserving structured codes under the
`runtime.failed` fallback) or build the artifact — first scenario's
episodes, the truncation warning plus ambient warnings, and a
limit-exceeded error when the measured duration overran the budget.
`cancelAt`/`elapsedAt` are the values the loop's boundary checks sample;
`durationMs` is the duration measured after the loop. -/
def runScenarioPhase (components : List Component) (cancelAt : ℕ → Bool)
    (elapsedAt : ℕ → ℕ) (backend : Scenario → Except StructuredError JSVal)
    (baseWarnings : List String) (durationMs : ℕ) : RunOutcome :=
  let allScenarios := buildScenarioList components
  if allScenarios.isEmpty then .noScenarios
  else
    let scenarios := allScenarios.take RUN_LIMITS.maxScenarios
    let truncated := scenarios.length < allScenarios.length
    let res := dispatchLoop cancelAt elapsedAt RUN_LIMITS.maxRunMs backend scenarios 0 []
    match res.outcome with
    | .error e =>
        .failed (normalizeError (.structured e) "runtime.failed" "Simulation failed."
          ["Check stream parameters and scenario settings.",
           "Reduce run size if your browser is resource constrained."])
    | .ok results =>
        match results with
        | [] => .noResults
        | r0 :: _ =>
            .done
              { episodes := let e := r0.2.getField "episodes"; if e.truthy then e else .arr []
                warnings :=
                  (if truncated then [truncationWarning RUN_LIMITS.maxScenarios] else [])
                    ++ baseWarnings
                errors :=
                  if RUN_LIMITS.maxRunMs < durationMs then [overranBudgetError] else []
                scenarioResults := results
                dispatched := res.dispatched }

/-! ## Config migration (`docs/js/schemas.js`) -/

/-- The run controls of a config document. -/
structure ControlsDoc where
  steps : JSNum
  episodes : JSNum
  seed : JSNum
deriving DecidableEq, Repr

/-- A versioned config document as migration sees it: the version tag,
the V1 flat control fields, the V2 nested `controls`, and the layer
data (opaque to migration). -/
structure ConfigDoc where
  version : String
  flatSteps : Option JSNum
  flatEpisodes : Option JSNum
  flatSeed : Option JSNum
  controls : Option ControlsDoc
  layers : JSVal
deriving Repr

/-- Modelled from the spec: `migrateIncomingConfig` lives in
`docs/js/schemas.js`, which is not among the source files (only its
importers and its Vitest spec are). Per spec §4.1/§6 and the schema
test: the current `PlaygroundConfigV2` document is returned unchanged;
a `PlaygroundConfigV1` document has its flat `steps/episodes/seed`
mapped onto nested `controls` (defaults 20/1/123 as in
`applyConfigToState`) and its layers carried over; any other version
tag fails with `compat.unknown_config_version`. -/
def migrateIncomingConfig (doc : ConfigDoc) : Except StructuredError ConfigDoc :=
  if doc.version = "PlaygroundConfigV2" then .ok doc
  else if doc.version = "PlaygroundConfigV1" then
    .ok
      { version := "PlaygroundConfigV2"
        flatSteps := none
        flatEpisodes := none
        flatSeed := none
        controls := some
          { steps := doc.flatSteps.getD (.num 20)
            episodes := doc.flatEpisodes.getD (.num 1)
            seed := doc.flatSeed.getD (.num 123) }
        layers := doc.layers }
  else
    .error (createError "compat.unknown_config_version"
      ("Unknown config version: " ++ doc.version ++ ".")
      ["Export a fresh bundle from the current playground."])

/-! ## Concrete inputs used by witnesses and counterexamples -/

/-- A two-option condition axis on component `s1`. -/
def sampleMeta2 : JSVal :=
  .obj [("type", .str "category"), ("options", .arr [.str "a", .str "b"]),
        ("value", .str "a"), ("kind", .str "condition")]

/-- A three-option condition axis (kind defaults to `condition`). -/
def sampleMeta3 : JSVal :=
  .obj [("type", .str "category"), ("options", .arr [.str "x", .str "y", .str "z"]),
        ("value", .str "x")]

/-- Component `s1` carrying the two-option axis. -/
def sampleComp2 : Component := ⟨"s1", .obj [], .obj [("mode", sampleMeta2)]⟩

/-- Component `s2` carrying the three-option axis. -/
def sampleComp3 : Component := ⟨"s2", .obj [], .obj [("regime", sampleMeta3)]⟩

/-- A category axis that declares the same option label twice. -/
def dupOptionsMeta : JSVal :=
  .obj [("type", .str "category"), ("options", .arr [.str "a", .str "a"])]

/-- A component whose only axis has duplicated option labels. -/
def dupOptionsComp : Component := ⟨"s1", .obj [], .obj [("mode", dupOptionsMeta)]⟩

/-- A component with only a numeric parameter: no condition axis. -/
def noAxesComp : Component :=
  ⟨"s1", .obj [("start", .num (.num 100))], .obj [("start", .obj [("type", .str "number")])]⟩

/-- A component with one 65-option condition axis: more scenarios than
`maxScenarios`. -/
def wideComp : Component :=
  ⟨"s1", .obj [],
   .obj [("mode", .obj [("type", .str "category"),
     ("options", .arr ((List.range 65).map fun i => .str ("o" ++ toString i)))])]⟩

/-- A backend result payload of the expected shape. -/
def okPayload : JSVal :=
  .obj [("episodes", .arr [.obj [("seed", .num (.num 123)), ("per_step", .arr []),
    ("episode", .obj [])]])]

/-- A backend that answers every scenario with `okPayload`. -/
def okBackend : Scenario → Except StructuredError JSVal := fun _ => .ok okPayload

/-- Category metadata whose source map binds option `"a"` to a
non-numeric string. -/
def rawMapInfo : JSVal :=
  .obj [("type", .str "category"), ("options", .arr [.str "a"]),
        ("map", .obj [("a", .str "xyz")])]

/-- Category metadata with two plain options and no source map. -/
def plainCatInfo : JSVal :=
  .obj [("options", .arr [.str "p", .str "q"]), ("value", .str "q")]

/-- Stream schema used by the validation counterexample: type `Price`
requires a `start` parameter. -/
def priceDefs : List (String × List StreamDef) := [("Price", [⟨"start"⟩])]

/-- A config whose stream has a truthy primitive `params`: the
validator's `in` probe throws on it. -/
def throwingCfg : JSVal :=
  .obj [("controls", .obj [("steps", .num (.num 10)), ("episodes", .num (.num 1)),
          ("seed", .num (.num 1))]),
        ("layers", .arr [.arr [.obj [("type", .str "Price"), ("params", .str "abc")]]])]

/-- An object config violating both the steps limit and the episodes
lower bound. -/
def doubleViolationCfg : JSVal :=
  .obj [("controls", .obj [("steps", .num (.num 501)), ("episodes", .num (.num 0)),
          ("seed", .num (.num 1))]),
        ("layers", .arr [.arr [.obj [("type", .str "Price"),
          ("params", .obj [("start", .num (.num 100))])]]])]

/-- A runtime instance with two requests pending. -/
def pendingRuntime : RuntimeState := ⟨true, ["r1", "r2"], true, 2⟩

/-- A V1 config document with flat controls. -/
def v1Doc : ConfigDoc :=
  { version := "PlaygroundConfigV1", flatSteps := some (.num 12),
    flatEpisodes := some (.num 3), flatSeed := some (.num 7),
    controls := none, layers := .arr [] }

/-- The V2 document `v1Doc` migrates to. -/
def v1Migrated : ConfigDoc :=
  { version := "PlaygroundConfigV2", flatSteps := none, flatEpisodes := none,
    flatSeed := none,
    controls := some { steps := .num 12, episodes := .num 3, seed := .num 7 },
    layers := .arr [] }

/-! ## Lemmas: scenario enumeration -/

/-- Flat-mapping branches of one common length multiplies lengths. -/
theorem length_flatMap_const {α β : Type _} (l : List α) (f : α → List β) (n : ℕ)
    (h : ∀ a ∈ l, (f a).length = n) : (l.flatMap f).length = l.length * n := by
  induction l with
  | nil => simp
  | cons a as ih =>
      rw [List.flatMap_cons, List.length_append, h a (by simp),
        ih fun a' ha' => h a' (by simp [ha'])]
      simp [Nat.succ_mul, Nat.add_comm]

/-- `scenarioWalk` produces one scenario per path: its length is the
product of the axes' option counts. -/
theorem scenarioWalk_length (axes : List Axis) :
    ∀ (cur : List (String × String)) (parts : List String),
    (scenarioWalk axes cur parts).length = (axes.map fun ax => ax.options.length).prod := by
  induction axes with
  | nil => intro cur parts; simp [scenarioWalk]
  | cons ax rest ih =>
      intro cur parts
      rw [scenarioWalk, length_flatMap_const _ _ ((rest.map fun ax => ax.options.length).prod)
        (fun opt _ => ih _ _), List.map_cons, List.prod_cons]

/-- Looking up the key just assigned. -/
theorem lookupOverride_setOverride_self (m : List (String × String)) (k v : String) :
    lookupOverride (setOverride m k v) k = some v := by
  induction m with
  | nil => simp [setOverride, lookupOverride]
  | cons p rest ih =>
      obtain ⟨k', v'⟩ := p
      by_cases h : k' = k <;> simp [setOverride, lookupOverride, h, ih]

/-- Assignment to a different key does not change a lookup. -/
theorem lookupOverride_setOverride_ne (m : List (String × String)) (k k' v : String)
    (h : k' ≠ k) : lookupOverride (setOverride m k' v) k = lookupOverride m k := by
  induction m with
  | nil => simp [setOverride, lookupOverride, h]
  | cons p rest ih =>
      obtain ⟨k'', v''⟩ := p
      by_cases h2 : k'' = k'
      · subst h2; simp [setOverride, lookupOverride, h]
      · by_cases h3 : k'' = k <;> simp [setOverride, lookupOverride, h2, h3, ih, Ne.symm h]

/-- Walking axes that never touch key `k` leaves `k`'s binding as it is
in the accumulated override map. -/
theorem scenarioWalk_lookup_frozen (axes : List Axis) :
    ∀ (cur : List (String × String)) (parts : List String) (s : Scenario),
    s ∈ scenarioWalk axes cur parts →
    ∀ k, (∀ ax ∈ axes, ax.overrideKey ≠ k) →
    lookupOverride s.overrides k = lookupOverride cur k := by
  induction axes with
  | nil =>
      intro cur parts s hs k _
      simp only [scenarioWalk, List.mem_singleton] at hs
      subst hs; rfl
  | cons ax rest ih =>
      intro cur parts s hs k hk
      rw [scenarioWalk] at hs
      obtain ⟨opt, _, hmem⟩ := List.mem_flatMap.1 hs
      rw [ih _ _ s hmem k fun ax' h' => hk ax' (List.mem_cons_of_mem _ h')]
      exact lookupOverride_setOverride_ne _ _ _ _ (hk ax (List.mem_cons_self _ _))

/-- Branches indexed by distinct options are disjoint when every member
of a branch pins key `k` to its option; their concatenation is
duplicate-free. -/
theorem nodup_flatMap_of_lookup (opts : List String)
    (branch : String → List (List (String × String))) (k : String)
    (hopts : opts.Nodup)
    (hn : ∀ o ∈ opts, (branch o).Nodup)
    (hl : ∀ o ∈ opts, ∀ m ∈ branch o, lookupOverride m k = some o) :
    (opts.flatMap branch).Nodup := by
  induction opts with
  | nil => simp
  | cons o os ih =>
      rw [List.flatMap_cons]
      refine List.Nodup.append (hn o (by simp))
        (ih (List.nodup_cons.1 hopts).2 (fun o' ho' => hn o' (by simp [ho']))
          (fun o' ho' => hl o' (by simp [ho']))) ?_
      intro m hm hm'
      obtain ⟨o', ho', hmo'⟩ := List.mem_flatMap.1 hm'
      have h1 := hl o (by simp) m hm
      have h2 := hl o' (by simp [ho']) m hmo'
      rw [h1] at h2
      injection h2 with h3
      exact (List.nodup_cons.1 hopts).1 (h3 ▸ ho')

/-- With pairwise-distinct axis keys and duplicate-free options, the
walk's override maps are pairwise distinct. -/
theorem scenarioWalk_overrides_nodup (axes : List Axis) :
    ∀ (cur : List (String × String)) (parts : List String),
    (axes.map Axis.overrideKey).Nodup →
    (∀ ax ∈ axes, ax.options.Nodup) →
    ((scenarioWalk axes cur parts).map Scenario.overrides).Nodup := by
  induction axes with
  | nil => intro cur parts _ _; simp [scenarioWalk]
  | cons ax rest ih =>
      intro cur parts hkeys hopts
      rw [scenarioWalk, List.map_flatMap]
      have hkey_notin : ax.overrideKey ∉ rest.map Axis.overrideKey :=
        (List.nodup_cons.1 (by simpa using hkeys)).1
      refine nodup_flatMap_of_lookup ax.options _ ax.overrideKey
        (hopts ax (List.mem_cons_self _ _)) ?_ ?_
      · intro o _
        exact ih _ _ (List.nodup_cons.1 (by simpa using hkeys)).2
          fun ax' h' => hopts ax' (List.mem_cons_of_mem _ h')
      · intro o _ m hm
        obtain ⟨s, hs, hsm⟩ := List.mem_map.1 hm
        subst hsm
        rw [scenarioWalk_lookup_frozen rest _ _ s hs ax.overrideKey
          (fun ax' h' heq => hkey_notin (heq ▸ List.mem_map_of_mem Axis.overrideKey h'))]
        exact lookupOverride_setOverride_self _ _ _

/-- Every collected axis carries at least one option (`buildScenarioList`
skips empty axes). -/
theorem collectAxes_options_ne_nil (components : List Component) :
    ∀ ax ∈ collectAxes components, ax.options ≠ [] := by
  intro ax hax
  obtain ⟨c, _, hc⟩ := List.mem_flatMap.1 hax
  obtain ⟨kv, _, heq⟩ := List.mem_filterMap.1 hc
  dsimp only at heq
  split at heq
  · split at heq
    · exact absurd heq (by simp)
    · split at heq
      · exact absurd heq (by simp)
      · next h3 =>
          injection heq with h4
          subst h4
          simpa [List.isEmpty_iff] using h3
  · exact absurd heq (by simp)

/-! ## Claims about the enumerator -/

/-- C1 (amended): for every configuration, `buildScenarioList` returns
exactly o1×…×on scenarios, the oi being the option counts of the
collected condition axes; the override maps are pairwise distinct
provided the axes' `componentId::parameterKey` strings are pairwise
distinct and no axis declares a duplicate option label. Determinism is
definitional here: the enumerator is a pure function of the
configuration, so repeated calls agree syntactically. -/
theorem buildScenarioList_product_distinct (components : List Component)
    (hkeys : ((collectAxes components).map Axis.overrideKey).Nodup)
    (hopts : ∀ ax ∈ collectAxes components, ax.options.Nodup) :
    (buildScenarioList components).length
        = ((collectAxes components).map fun ax => ax.options.length).prod
      ∧ ((buildScenarioList components).map Scenario.overrides).Nodup := by
  unfold buildScenarioList
  by_cases h : (collectAxes components).isEmpty
  · rw [if_pos h, List.isEmpty_iff.1 h]
    simp
  · rw [if_neg h]
    exact ⟨scenarioWalk_length _ _ _, scenarioWalk_overrides_nodup _ _ _ hkeys hopts⟩

/-- C1 witness: two axes of sizes 2 and 3 give six pairwise-distinct
override maps. -/
theorem buildScenarioList_product_distinct_witness :
    (buildScenarioList [sampleComp2, sampleComp3]).length
        = ((collectAxes [sampleComp2, sampleComp3]).map fun ax => ax.options.length).prod
      ∧ ((buildScenarioList [sampleComp2, sampleComp3]).map Scenario.overrides).Nodup :=
  buildScenarioList_product_distinct [sampleComp2, sampleComp3] (by decide) (by decide)

/-- C1 counterexample: an axis declaring the option label `"a"` twice
yields 2 = o1 scenarios whose override maps coincide, refuting the
unconditional distinctness of the frozen claim. -/
theorem buildScenarioList_duplicate_options_cex :
    (buildScenarioList [dupOptionsComp]).length = 2
      ∧ ¬ ((buildScenarioList [dupOptionsComp]).map Scenario.overrides).Nodup :=
  ⟨rfl, by decide⟩

/-- C7: a configuration that contributes no condition axis enumerates to
exactly the single `"Base"` scenario with an empty override map. -/
theorem buildScenarioList_base_scenario (components : List Component)
    (h : collectAxes components = []) :
    buildScenarioList components = [{ label := "Base", overrides := [] }] := by
  unfold buildScenarioList
  rw [h]
  rfl

/-- C7 witness: a component with only a numeric parameter. -/
theorem buildScenarioList_base_scenario_witness :
    buildScenarioList [noAxesComp] = [{ label := "Base", overrides := [] }] :=
  buildScenarioList_base_scenario [noAxesComp] (by decide)

/-- C10: the enumerated list is never empty — the zero-axis case
returns the `"Base"` scenario and every collected axis keeps at least
one option — so the orchestrator's zero-scenarios failure branch is
unreachable. -/
theorem buildScenarioList_nonempty (components : List Component) (cancelAt : ℕ → Bool)
    (elapsedAt : ℕ → ℕ) (backend : Scenario → Except StructuredError JSVal)
    (baseWarnings : List String) (durationMs : ℕ) :
    buildScenarioList components ≠ []
      ∧ runScenarioPhase components cancelAt elapsedAt backend baseWarnings durationMs
          ≠ RunOutcome.noScenarios := by
  have hne : buildScenarioList components ≠ [] := by
    unfold buildScenarioList
    by_cases h : (collectAxes components).isEmpty
    · rw [if_pos h]; simp
    · rw [if_neg h]
      have hlen : 0 < (scenarioWalk (collectAxes components) [] []).length := by
        rw [scenarioWalk_length]
        apply List.prod_pos
        intro a ha
        obtain ⟨ax, hax, rfl⟩ := List.mem_map.1 ha
        exact List.length_pos.2 (collectAxes_options_ne_nil components ax hax)
      exact List.length_pos.1 hlen
  refine ⟨hne, ?_⟩
  unfold runScenarioPhase
  rw [if_neg (by simpa [List.isEmpty_iff] using hne)]
  dsimp only
  split
  · simp
  · split <;> simp

/-! ## Lemmas: the dispatch loop -/

/-- A clean pass: when neither boundary check fires for any scenario
and the backend answers every scenario, the loop dispatches every
scenario in order and collects one `{label, result}` pair each. -/
theorem dispatchLoop_clean (cancelAt : ℕ → Bool) (elapsedAt : ℕ → ℕ) (maxRunMs : ℕ)
    (backend : Scenario → Except StructuredError JSVal) (g : Scenario → JSVal)
    (hb : ∀ s, backend s = .ok (g s)) :
    ∀ (scns : List Scenario) (i : ℕ) (acc : List (String × JSVal)),
    (∀ j, j < scns.length → cancelAt (i + j) = false) →
    (∀ j, j < scns.length → elapsedAt (i + j) ≤ maxRunMs) →
    dispatchLoop cancelAt elapsedAt maxRunMs backend scns i acc =
      ⟨scns.map Scenario.label, .ok (acc ++ scns.map fun s => (s.label, g s))⟩ := by
  intro scns
  induction scns with
  | nil => intro i acc _ _; simp [dispatchLoop]
  | cons s rest ih =>
      intro i acc hc ht
      have hc0 : cancelAt i = false := by simpa using hc 0 (by simp)
      have ht0 : ¬ maxRunMs < elapsedAt i := by
        simpa [Nat.not_lt] using ht 0 (by simp)
      rw [dispatchLoop, if_neg (by simp [hc0]), if_neg ht0, hb s]
      dsimp only
      rw [ih (i + 1) (acc ++ [(s.label, g s)])
        (fun j hj => by simpa [Nat.add_assoc, Nat.add_comm 1 j] using hc (j + 1) (by simpa using hj))
        (fun j hj => by simpa [Nat.add_assoc, Nat.add_comm 1 j] using ht (j + 1) (by simpa using hj))]
      simp

/-- Cancellation observed at boundary `k` (all earlier boundaries
clean): the loop dispatches exactly the first `k` scenarios and aborts
with the `runtime.cancelled` error, regardless of the clock at `k`. -/
theorem dispatchLoop_cancel_at (cancelAt : ℕ → Bool) (elapsedAt : ℕ → ℕ) (maxRunMs : ℕ)
    (backend : Scenario → Except StructuredError JSVal) (g : Scenario → JSVal)
    (hb : ∀ s, backend s = .ok (g s)) :
    ∀ (k : ℕ) (scns : List Scenario) (i : ℕ) (acc : List (String × JSVal)),
    k < scns.length →
    (∀ j, j < k → cancelAt (i + j) = false) →
    (∀ j, j < k → elapsedAt (i + j) ≤ maxRunMs) →
    cancelAt (i + k) = true →
    dispatchLoop cancelAt elapsedAt maxRunMs backend scns i acc =
      ⟨(scns.take k).map Scenario.label, .error cancelledRunError⟩ := by
  intro k
  induction k with
  | zero =>
      intro scns i acc hk _ _ hcancel
      match scns, hk with
      | s :: rest, _ =>
          rw [dispatchLoop, if_pos (by simpa using hcancel)]
          simp
  | succ k ih =>
      intro scns i acc hk hc ht hcancel
      match scns, hk with
      | s :: rest, hk =>
          have hc0 : cancelAt i = false := by simpa using hc 0 (by simp)
          have ht0 : ¬ maxRunMs < elapsedAt i := by
            simpa [Nat.not_lt] using ht 0 (by simp)
          rw [dispatchLoop, if_neg (by simp [hc0]), if_neg ht0, hb s]
          dsimp only
          rw [ih rest (i + 1) (acc ++ [(s.label, g s)]) (by simpa using hk)
            (fun j hj => by simpa [Nat.add_assoc, Nat.add_comm 1 j] using hc (j + 1) (by omega))
            (fun j hj => by simpa [Nat.add_assoc, Nat.add_comm 1 j] using ht (j + 1) (by omega))
            (by simpa [Nat.add_assoc, Nat.add_comm 1 k] using hcancel)]
          simp

/-- Time budget exceeded at boundary `k` (all earlier boundaries clean,
cancellation not requested at `k`): the loop dispatches exactly the
first `k` scenarios and aborts with the `runtime.limit_exceeded`
error. -/
theorem dispatchLoop_timeout_at (cancelAt : ℕ → Bool) (elapsedAt : ℕ → ℕ) (maxRunMs : ℕ)
    (backend : Scenario → Except StructuredError JSVal) (g : Scenario → JSVal)
    (hb : ∀ s, backend s = .ok (g s)) :
    ∀ (k : ℕ) (scns : List Scenario) (i : ℕ) (acc : List (String × JSVal)),
    k < scns.length →
    (∀ j, j < k → cancelAt (i + j) = false) →
    (∀ j, j < k → elapsedAt (i + j) ≤ maxRunMs) →
    cancelAt (i + k) = false →
    maxRunMs < elapsedAt (i + k) →
    dispatchLoop cancelAt elapsedAt maxRunMs backend scns i acc =
      ⟨(scns.take k).map Scenario.label, .error (limitExceededError maxRunMs)⟩ := by
  intro k
  induction k with
  | zero =>
      intro scns i acc hk _ _ hcancel hover
      match scns, hk with
      | s :: rest, _ =>
          rw [dispatchLoop, if_neg (by simpa using hcancel), if_pos (by simpa using hover)]
          simp
  | succ k ih =>
      intro scns i acc hk hc ht hcancel hover
      match scns, hk with
      | s :: rest, hk =>
          have hc0 : cancelAt i = false := by simpa using hc 0 (by simp)
          have ht0 : ¬ maxRunMs < elapsedAt i := by
            simpa [Nat.not_lt] using ht 0 (by simp)
          rw [dispatchLoop, if_neg (by simp [hc0]), if_neg ht0, hb s]
          dsimp only
          rw [ih rest (i + 1) (acc ++ [(s.label, g s)]) (by simpa using hk)
            (fun j hj => by simpa [Nat.add_assoc, Nat.add_comm 1 j] using hc (j + 1) (by omega))
            (fun j hj => by simpa [Nat.add_assoc, Nat.add_comm 1 j] using ht (j + 1) (by omega))
            (by simpa [Nat.add_assoc, Nat.add_comm 1 k] using hcancel)
            (by simpa [Nat.add_assoc, Nat.add_comm 1 k] using hover)]
          simp

/-! ## Claims about the orchestrator -/

/-- C2: when the enumerated list is longer than `maxScenarios`, a clean
run dispatches exactly the first `maxScenarios` scenarios and records
the truncation notice in the artifact's warnings; the cap is applied by
the orchestrator's `take`, while the enumerated list itself keeps its
full length (its length is the full product of axis sizes, the premise
`hN` being satisfiable precisely because the enumerator never caps). -/
theorem runSimulation_truncates (components : List Component) (cancelAt : ℕ → Bool)
    (elapsedAt : ℕ → ℕ) (backend : Scenario → Except StructuredError JSVal)
    (g : Scenario → JSVal) (baseWarnings : List String) (durationMs : ℕ)
    (hb : ∀ s, backend s = .ok (g s))
    (hc : ∀ i, cancelAt i = false)
    (ht : ∀ i, elapsedAt i ≤ RUN_LIMITS.maxRunMs)
    (hN : RUN_LIMITS.maxScenarios < (buildScenarioList components).length) :
    ∃ a, runScenarioPhase components cancelAt elapsedAt backend baseWarnings durationMs
        = .done a
      ∧ a.dispatched
          = ((buildScenarioList components).take RUN_LIMITS.maxScenarios).map Scenario.label
      ∧ a.dispatched.length = RUN_LIMITS.maxScenarios
      ∧ truncationWarning RUN_LIMITS.maxScenarios ∈ a.warnings
      ∧ a.scenarioResults.length = RUN_LIMITS.maxScenarios := by
  have hne : buildScenarioList components ≠ [] := by
    intro h
    rw [h] at hN
    simp at hN
  have htakelen : ((buildScenarioList components).take RUN_LIMITS.maxScenarios).length
      = RUN_LIMITS.maxScenarios := by
    rw [List.length_take]
    exact Nat.min_eq_left (le_of_lt hN)
  unfold runScenarioPhase
  rw [if_neg (by simpa [List.isEmpty_iff] using hne)]
  dsimp only
  rw [dispatchLoop_clean cancelAt elapsedAt RUN_LIMITS.maxRunMs backend g hb
    ((buildScenarioList components).take RUN_LIMITS.maxScenarios) 0 []
    (fun j _ => by simpa using hc j) (fun j _ => by simpa using ht j)]
  dsimp only
  rw [List.nil_append]
  have hscne : (buildScenarioList components).take RUN_LIMITS.maxScenarios ≠ [] := by
    intro h
    rw [h] at htakelen
    simp [RUN_LIMITS] at htakelen
  obtain ⟨s0, srest, hs⟩ := List.exists_cons_of_ne_nil hscne
  rw [hs]
  dsimp only [List.map_cons]
  have hlen64 : (s0 :: srest).length = RUN_LIMITS.maxScenarios := hs ▸ htakelen
  refine ⟨_, rfl, ?_, ?_, ?_, ?_⟩
  · rfl
  · simpa using hlen64
  · rw [if_pos (hlen64 ▸ hN : (s0 :: srest).length < (buildScenarioList components).length)]
    simp
  · simpa using hlen64

/-- C2 witness: one 65-option axis enumerates 65 scenarios; a clean run
dispatches exactly 64 and records the truncation notice. -/
theorem runSimulation_truncates_witness :
    ∃ a, runScenarioPhase [wideComp] (fun _ => false) (fun _ => 0) okBackend [] 0
        = .done a
      ∧ a.dispatched
          = ((buildScenarioList [wideComp]).take RUN_LIMITS.maxScenarios).map Scenario.label
      ∧ a.dispatched.length = RUN_LIMITS.maxScenarios
      ∧ truncationWarning RUN_LIMITS.maxScenarios ∈ a.warnings
      ∧ a.scenarioResults.length = RUN_LIMITS.maxScenarios :=
  runSimulation_truncates [wideComp] (fun _ => false) (fun _ => 0) okBackend
    (fun _ => okPayload) [] 0 (fun _ => rfl) (fun _ => rfl) (fun _ => Nat.zero_le _)
    (by decide)

/-- C3: with the backend answering and no cancellation request, an
elapsed time above `maxRunMs` first observed at scenario boundary `k`
makes the run fail with `runtime.limit_exceeded`, and the loop
dispatches exactly the `k` scenarios before that boundary — none after
it. The cancellation flag is sampled first at every boundary (`hc`
covers boundary `k` itself); the clock is checked before every
scenario. -/
theorem runSimulation_limit_exceeded (components : List Component) (cancelAt : ℕ → Bool)
    (elapsedAt : ℕ → ℕ) (backend : Scenario → Except StructuredError JSVal)
    (g : Scenario → JSVal) (baseWarnings : List String) (durationMs k : ℕ)
    (hb : ∀ s, backend s = .ok (g s))
    (hk : k < ((buildScenarioList components).take RUN_LIMITS.maxScenarios).length)
    (hc : ∀ j, j ≤ k → cancelAt j = false)
    (ht : ∀ j, j < k → elapsedAt j ≤ RUN_LIMITS.maxRunMs)
    (hover : RUN_LIMITS.maxRunMs < elapsedAt k) :
    ∃ e, runScenarioPhase components cancelAt elapsedAt backend baseWarnings durationMs
        = .failed e
      ∧ e.code = "runtime.limit_exceeded"
      ∧ (dispatchLoop cancelAt elapsedAt RUN_LIMITS.maxRunMs backend
            ((buildScenarioList components).take RUN_LIMITS.maxScenarios) 0 []).dispatched
          = (((buildScenarioList components).take RUN_LIMITS.maxScenarios).take k).map
              Scenario.label := by
  have hne : buildScenarioList components ≠ [] := by
    intro h
    rw [h] at hk
    simp at hk
  have hstop := dispatchLoop_timeout_at cancelAt elapsedAt RUN_LIMITS.maxRunMs backend g hb
    k ((buildScenarioList components).take RUN_LIMITS.maxScenarios) 0 [] hk
    (fun j hj => by simpa using hc j (le_of_lt hj))
    (fun j hj => by simpa using ht j hj)
    (by simpa using hc k le_rfl)
    (by simpa using hover)
  unfold runScenarioPhase
  rw [if_neg (by simpa [List.isEmpty_iff] using hne)]
  dsimp only
  rw [hstop]
  exact ⟨_, rfl, rfl, rfl⟩

/-- C3 witness: three scenarios, clock over budget at boundary 1: only
the first scenario is dispatched. -/
theorem runSimulation_limit_exceeded_witness :
    ∃ e, runScenarioPhase [sampleComp3] (fun _ => false)
          (fun i => if i = 0 then 0 else 46000) okBackend [] 0
        = .failed e
      ∧ e.code = "runtime.limit_exceeded"
      ∧ (dispatchLoop (fun _ => false) (fun i => if i = 0 then 0 else 46000)
            RUN_LIMITS.maxRunMs okBackend
            ((buildScenarioList [sampleComp3]).take RUN_LIMITS.maxScenarios) 0 []).dispatched
          = (((buildScenarioList [sampleComp3]).take RUN_LIMITS.maxScenarios).take 1).map
              Scenario.label :=
  runSimulation_limit_exceeded [sampleComp3] (fun _ => false)
    (fun i => if i = 0 then 0 else 46000) okBackend (fun _ => okPayload) [] 0 1
    (fun _ => rfl) (by decide) (fun j _ => rfl)
    (fun j hj => by
      have hj0 : j = 0 := Nat.lt_one_iff.mp hj
      subst hj0
      decide)
    (by decide)

/-- C4: cancellation observed at scenario boundary `k` (earlier
boundaries clean) stops the run with `runtime.cancelled` before the
clock is even consulted at that boundary, and only the `k` earlier
scenarios were dispatched; `terminate()` rejects every pending request
with the `runtime.cancelled` error, clears the pending table, detaches
the worker and drops readiness, so the instance must be reinitialised
before it can serve again. -/
theorem runSimulation_cancelled_terminate (components : List Component) (cancelAt : ℕ → Bool)
    (elapsedAt : ℕ → ℕ) (backend : Scenario → Except StructuredError JSVal)
    (g : Scenario → JSVal) (baseWarnings : List String) (durationMs k : ℕ)
    (st : RuntimeState)
    (hb : ∀ s, backend s = .ok (g s))
    (hk : k < ((buildScenarioList components).take RUN_LIMITS.maxScenarios).length)
    (hc : ∀ j, j < k → cancelAt j = false)
    (ht : ∀ j, j < k → elapsedAt j ≤ RUN_LIMITS.maxRunMs)
    (hcancel : cancelAt k = true) :
    (∃ e, runScenarioPhase components cancelAt elapsedAt backend baseWarnings durationMs
          = .failed e
        ∧ e.code = "runtime.cancelled")
      ∧ (dispatchLoop cancelAt elapsedAt RUN_LIMITS.maxRunMs backend
            ((buildScenarioList components).take RUN_LIMITS.maxScenarios) 0 []).dispatched
          = (((buildScenarioList components).take RUN_LIMITS.maxScenarios).take k).map
              Scenario.label
      ∧ (terminateRuntime st).1.pending = []
      ∧ (terminateRuntime st).1.ready = false
      ∧ (terminateRuntime st).1.workerAlive = false
      ∧ (terminateRuntime st).2 = st.pending.map (fun rid => (rid, cancelledRejection))
      ∧ cancelledRejection.code = "runtime.cancelled" := by
  have hne : buildScenarioList components ≠ [] := by
    intro h
    rw [h] at hk
    simp at hk
  have hstop := dispatchLoop_cancel_at cancelAt elapsedAt RUN_LIMITS.maxRunMs backend g hb
    k ((buildScenarioList components).take RUN_LIMITS.maxScenarios) 0 [] hk
    (fun j hj => by simpa using hc j hj)
    (fun j hj => by simpa using ht j hj)
    (by simpa using hcancel)
  refine ⟨?_, by rw [hstop], rfl, rfl, rfl, rfl, rfl⟩
  unfold runScenarioPhase
  rw [if_neg (by simpa [List.isEmpty_iff] using hne)]
  dsimp only
  rw [hstop]
  exact ⟨_, rfl, rfl⟩

/-- C4 witness: cancellation at boundary 1 of three scenarios, with two
pending requests at termination time. -/
theorem runSimulation_cancelled_terminate_witness :
    (∃ e, runScenarioPhase [sampleComp3] (fun i => i == 1) (fun _ => 0) okBackend [] 0
          = .failed e
        ∧ e.code = "runtime.cancelled")
      ∧ (dispatchLoop (fun i => i == 1) (fun _ => 0) RUN_LIMITS.maxRunMs okBackend
            ((buildScenarioList [sampleComp3]).take RUN_LIMITS.maxScenarios) 0 []).dispatched
          = (((buildScenarioList [sampleComp3]).take RUN_LIMITS.maxScenarios).take 1).map
              Scenario.label
      ∧ (terminateRuntime pendingRuntime).1.pending = []
      ∧ (terminateRuntime pendingRuntime).1.ready = false
      ∧ (terminateRuntime pendingRuntime).1.workerAlive = false
      ∧ (terminateRuntime pendingRuntime).2
          = pendingRuntime.pending.map (fun rid => (rid, cancelledRejection))
      ∧ cancelledRejection.code = "runtime.cancelled" :=
  runSimulation_cancelled_terminate [sampleComp3] (fun i => i == 1) (fun _ => 0) okBackend
    (fun _ => okPayload) [] 0 1 pendingRuntime (fun _ => rfl) (by decide)
    (fun j hj => by
      have hj0 : j = 0 := Nat.lt_one_iff.mp hj
      subst hj0
      decide)
    (fun _ _ => Nat.zero_le _) rfl

/-! ## Lemmas: the validator -/

/-- A steps value over the limit always contributes the
`validation.steps_limit` error to the control-error list. -/
theorem controlErrors_steps_limit (c : ControlsRead) (l : RunLimits)
    (h : c.steps.gtb (.num l.maxSteps) = true) :
    "validation.steps_limit" ∈ (controlErrors c l).map StructuredError.code := by
  unfold controlErrors
  simp [h, createError]

/-- Episodes below 1 (or non-finite) always contribute the
`validation.episodes_invalid` error to the control-error list. -/
theorem controlErrors_episodes_invalid (c : ControlsRead) (l : RunLimits)
    (h : ¬ c.episodes.isFiniteB = true ∨ c.episodes.ltb (.num 1) = true) :
    "validation.episodes_invalid" ∈ (controlErrors c l).map StructuredError.code := by
  rcases h with h | h
  · have hf : c.episodes.isFiniteB = false := by simpa using h
    simp [controlErrors, hf, createError]
  · simp [controlErrors, h, createError]

/-- Whenever the validator returns a list for an object config, that
list starts with all control-field errors. -/
theorem validate_ok_starts_with_controls (config : JSVal)
    (streamDefs : List (String × List StreamDef)) (runLimits : RunLimits)
    (errs : List StructuredError)
    (hobj : config.truthy = true ∧ config.isObjectType = true)
    (h : validateConfigPayload config streamDefs runLimits = .ok errs) :
    ∃ tail, errs = controlErrors (readControls config) runLimits ++ tail := by
  unfold validateConfigPayload at h
  rw [if_neg (not_not_intro hobj)] at h
  dsimp only at h
  split at h
  · next layers _ =>
      split at h
      · rw [Except.ok.injEq] at h
        exact ⟨_, h.symm⟩
      · cases hh : layersErrors streamDefs layers 0 with
        | error e => rw [hh] at h; simp [Bind.bind, Except.bind] at h
        | ok lerrs =>
            rw [hh] at h
            simp only [Bind.bind, Except.bind, Except.ok.injEq] at h
            exact ⟨_, h.symm⟩
  · rw [Except.ok.injEq] at h
    exact ⟨_, h.symm⟩

/-- `streamParamErrors` cannot throw when the probed `params` is an
object or an array. -/
theorem streamParamErrors_ok (defs : List StreamDef) (params : JSVal)
    (li si : ℕ) (hp : params.isObjectLike = true) :
    ∃ es, streamParamErrors defs params li si = .ok es := by
  induction defs with
  | nil => exact ⟨[], rfl⟩
  | cons d rest ih =>
      obtain ⟨es, hes⟩ := ih
      have hin : ∃ b, jsInOp d.key params = .ok b := by
        cases params <;> simp_all [jsInOp, JSVal.isObjectLike]
      obtain ⟨b, hb⟩ := hin
      simp only [streamParamErrors, hb, hes, Bind.bind, Except.bind]
      exact ⟨_, rfl⟩

/-- `streamErrors` cannot throw when the stream's `params` field is an
object/array whenever it is truthy. -/
theorem streamErrors_ok (streamDefs : List (String × List StreamDef)) (stream : JSVal)
    (li si : ℕ)
    (hp : (stream.getField "params").truthy = true →
      (stream.getField "params").isObjectLike = true) :
    ∃ es, streamErrors streamDefs stream li si = .ok es := by
  unfold streamErrors
  split
  · exact ⟨_, rfl⟩
  · have hol : (if (stream.getField "params").truthy then stream.getField "params"
        else JSVal.obj []).isObjectLike = true := by
      split
      · next htr => exact hp htr
      · rfl
    obtain ⟨es, hes⟩ := streamParamErrors_ok
      ((streamDefs.lookup (jsToString (stream.getField "type"))).getD [])
      _ li si hol
    simp only [hes, Bind.bind, Except.bind]
    exact ⟨_, rfl⟩

/-- `layerStreamErrors` cannot throw when every stream's truthy `params`
is object-like. -/
theorem layerStreamErrors_ok (streamDefs : List (String × List StreamDef))
    (streams : List JSVal) (li : ℕ) :
    ∀ (si : ℕ),
    (∀ s ∈ streams, (s.getField "params").truthy = true →
      (s.getField "params").isObjectLike = true) →
    ∃ es, layerStreamErrors streamDefs streams li si = .ok es := by
  induction streams with
  | nil => exact fun si _ => ⟨[], rfl⟩
  | cons s rest ih =>
      intro si hp
      obtain ⟨e1, he1⟩ := streamErrors_ok streamDefs s li si (hp s (by simp))
      obtain ⟨e2, he2⟩ := ih (si + 1) fun s' hs' => hp s' (by simp [hs'])
      simp only [layerStreamErrors, he1, he2, Bind.bind, Except.bind]
      exact ⟨_, rfl⟩

/-- `layerErrors` cannot throw when every stream's truthy `params` is
object-like. -/
theorem layerErrors_ok (streamDefs : List (String × List StreamDef)) (layer : JSVal)
    (li : ℕ)
    (hp : ∀ streams, layer = JSVal.arr streams →
      ∀ s ∈ streams, (s.getField "params").truthy = true →
        (s.getField "params").isObjectLike = true) :
    ∃ es, layerErrors streamDefs layer li = .ok es := by
  unfold layerErrors
  split
  · next streams =>
      split
      · exact ⟨_, rfl⟩
      · exact layerStreamErrors_ok streamDefs streams li 0 (hp streams rfl)
  · exact ⟨_, rfl⟩

/-- `layersErrors` cannot throw when every stream's truthy `params` is
object-like. -/
theorem layersErrors_ok (streamDefs : List (String × List StreamDef))
    (layers : List JSVal) :
    ∀ (li : ℕ),
    (∀ layer ∈ layers, ∀ streams, layer = JSVal.arr streams →
      ∀ s ∈ streams, (s.getField "params").truthy = true →
        (s.getField "params").isObjectLike = true) →
    ∃ es, layersErrors streamDefs layers li = .ok es := by
  induction layers with
  | nil => exact fun li _ => ⟨[], rfl⟩
  | cons l rest ih =>
      intro li hp
      obtain ⟨e1, he1⟩ := layerErrors_ok streamDefs l li (hp l (by simp))
      obtain ⟨e2, he2⟩ := ih (li + 1) fun l' hl' => hp l' (by simp [hl'])
      simp only [layersErrors, he1, he2, Bind.bind, Except.bind]
      exact ⟨_, rfl⟩

/-! ## Claims about the validator and the dispatcher result path -/

/-- C5 (amended): a non-object config yields exactly the one top-level
`validation.cfg_invalid` error; whenever the validator returns a list
for an object config it has collected all control errors at once — in
particular `validation.steps_limit` whenever `steps > maxSteps` and
`validation.episodes_invalid` whenever `episodes < 1` (or is not
finite), both together when both violations hold; and the validator
cannot throw as long as every stream's truthy `params` field is an
object or an array. (The unconditional "never throws" of the frozen
claim fails: see the counterexample, where a truthy primitive `params`
makes the `in` probe raise a TypeError.) -/
theorem validateConfigPayload_exhaustive (config : JSVal)
    (streamDefs : List (String × List StreamDef)) (runLimits : RunLimits) :
    (¬ (config.truthy = true ∧ config.isObjectType = true) →
        validateConfigPayload config streamDefs runLimits = .ok [cfgInvalidError])
    ∧ (∀ errs, validateConfigPayload config streamDefs runLimits = .ok errs →
        (config.truthy = true ∧ config.isObjectType = true) →
        (((readControls config).steps.gtb (.num runLimits.maxSteps) = true →
            "validation.steps_limit" ∈ errs.map StructuredError.code)
          ∧ ((¬ (readControls config).episodes.isFiniteB = true
                ∨ (readControls config).episodes.ltb (.num 1) = true) →
            "validation.episodes_invalid" ∈ errs.map StructuredError.code)))
    ∧ ((∀ layers, config.getField "layers" = JSVal.arr layers →
          ∀ layer ∈ layers, ∀ streams, layer = JSVal.arr streams →
          ∀ stream ∈ streams, (stream.getField "params").truthy = true →
            (stream.getField "params").isObjectLike = true) →
        ∃ errs, validateConfigPayload config streamDefs runLimits = .ok errs) := by
  refine ⟨?_, ?_, ?_⟩
  · intro hno
    unfold validateConfigPayload
    rw [if_pos hno]
  · intro errs herrs hobj
    obtain ⟨tail, htail⟩ :=
      validate_ok_starts_with_controls config streamDefs runLimits errs hobj herrs
    subst htail
    constructor
    · intro hsteps
      have := controlErrors_steps_limit (readControls config) runLimits hsteps
      simp only [List.map_append, List.mem_append]
      exact Or.inl this
    · intro hep
      have := controlErrors_episodes_invalid (readControls config) runLimits hep
      simp only [List.map_append, List.mem_append]
      exact Or.inl this
  · intro hp
    by_cases hobj : config.truthy = true ∧ config.isObjectType = true
    · unfold validateConfigPayload
      rw [if_neg (not_not_intro hobj)]
      dsimp only
      split
      · next layers hlay =>
          split
          · exact ⟨_, rfl⟩
          · obtain ⟨es, hes⟩ := layersErrors_ok streamDefs layers 0 fun layer hl => hp layers hlay layer hl
            simp only [hes, Bind.bind, Except.bind]
            exact ⟨_, rfl⟩
      · exact ⟨_, rfl⟩
    · unfold validateConfigPayload
      rw [if_pos hobj]
      exact ⟨_, rfl⟩

/-- C5 counterexample: the claim's "never throws" fails — a stream
whose `params` is the truthy primitive string `"abc"` makes the `in`
probe throw a TypeError (surfaced as `Except.error` in the
embedding). -/
theorem validateConfigPayload_throws_cex :
    validateConfigPayload throwingCfg priceDefs RUN_LIMITS
      = .error "TypeError: cannot use the in operator on a non-object" := rfl

/-- C6: for a resolved `run_ok` completion, the dispatcher's execute
path fails with `runtime.bad_result_shape` exactly when the payload
fails the expected episodes/per-step shape, and a payload that passes
the shape check is returned unchanged; a completion of any other type
fails with `runtime.failed` instead. -/
theorem runtimeRun_bad_shape (resp : WorkerResponse) :
    (resp.type = "run_ok" →
      ((validateRunResultShape resp.payload = true →
          runtimeRun (.ok resp) = .ok resp.payload)
        ∧ (validateRunResultShape resp.payload = false →
            ∃ e, runtimeRun (.ok resp) = .error e ∧ e.code = "runtime.bad_result_shape")
        ∧ (∀ e, runtimeRun (.ok resp) = .error e → e.code = "runtime.bad_result_shape" →
            validateRunResultShape resp.payload = false)))
    ∧ (resp.type ≠ "run_ok" →
        ∃ e, runtimeRun (.ok resp) = .error e ∧ e.code = "runtime.failed") := by
  constructor
  · intro htype
    have hok : ¬ resp.type ≠ "run_ok" := not_not_intro htype
    refine ⟨?_, ?_, ?_⟩
    · intro hshape
      unfold runtimeRun
      dsimp only
      rw [if_neg hok, if_neg (by simp [hshape])]
    · intro hshape
      unfold runtimeRun
      dsimp only
      rw [if_neg hok, if_pos (by simp [hshape])]
      exact ⟨_, rfl, rfl⟩
    · intro e he _
      by_cases hshape : validateRunResultShape resp.payload
      · exfalso
        unfold runtimeRun at he
        dsimp only at he
        rw [if_neg hok, if_neg (by simp [hshape])] at he
        simp at he
      · simpa using hshape
  · intro htype
    unfold runtimeRun
    dsimp only
    rw [if_pos htype]
    exact ⟨_, rfl, rfl⟩

/-! ## Lemmas: the category map -/

/-- Looking up the field just assigned. -/
theorem lookupField_setFieldList_self (m : List (String × JSVal)) (k : String) (v : JSVal) :
    lookupField (setFieldList m k v) k = v := by
  induction m with
  | nil => simp [setFieldList, lookupField]
  | cons p rest ih =>
      obtain ⟨k', v'⟩ := p
      by_cases h : k' = k <;> simp [setFieldList, lookupField, h, ih]

/-- Assignment to a different field does not change a lookup. -/
theorem lookupField_setFieldList_ne (m : List (String × JSVal)) (k k' : String) (v : JSVal)
    (h : k' ≠ k) : lookupField (setFieldList m k' v) k = lookupField m k := by
  induction m with
  | nil => simp [setFieldList, lookupField, h]
  | cons p rest ih =>
      obtain ⟨k'', v''⟩ := p
      by_cases h2 : k'' = k'
      · subst h2; simp [setFieldList, lookupField, h]
      · by_cases h3 : k'' = k <;> simp [setFieldList, lookupField, h2, h3, ih, Ne.symm h]

/-- The field just assigned is present. -/
theorem hasField_setFieldList_self (m : List (String × JSVal)) (k : String) (v : JSVal) :
    hasField (setFieldList m k v) k = true := by
  induction m with
  | nil => simp [setFieldList, hasField]
  | cons p rest ih =>
      obtain ⟨k', v'⟩ := p
      by_cases h : k' = k <;> simp [setFieldList, hasField, h, ih]

/-- Assignment never removes a present field. -/
theorem hasField_setFieldList_mono (m : List (String × JSVal)) (k k' : String) (v : JSVal)
    (h : hasField m k = true) : hasField (setFieldList m k' v) k = true := by
  induction m with
  | nil => simp [hasField] at h
  | cons p rest ih =>
      obtain ⟨k'', v''⟩ := p
      simp only [hasField, Bool.or_eq_true, decide_eq_true_eq] at h
      by_cases h2 : k'' = k'
      · rw [setFieldList, if_pos h2]
        rcases h with h | h
        · simp [hasField, h2.symm.trans h]
        · simp [hasField, h]
      · rw [setFieldList, if_neg h2]
        rcases h with h | h
        · simp [hasField, h]
        · simp [hasField, ih h]

/-- `buildCatMap` never removes a present field. -/
theorem buildCatMap_hasField_mono (sm : List (String × JSVal)) (opts : List String) :
    ∀ (idx : ℕ) (acc : List (String × JSVal)) (k : String),
    hasField acc k = true → hasField (buildCatMap sm opts idx acc) k = true := by
  induction opts with
  | nil => intro idx acc k h; simpa [buildCatMap] using h
  | cons opt rest ih =>
      intro idx acc k h
      rw [buildCatMap]
      exact ih (idx + 1) _ k (hasField_setFieldList_mono _ _ _ _ h)

/-- Every option gets an entry in the built map. -/
theorem buildCatMap_hasField_of_mem (sm : List (String × JSVal)) (opts : List String) :
    ∀ (idx : ℕ) (acc : List (String × JSVal)) (opt : String), opt ∈ opts →
    hasField (buildCatMap sm opts idx acc) opt = true := by
  induction opts with
  | nil => intro idx acc opt h; simp at h
  | cons o rest ih =>
      intro idx acc opt h
      rw [buildCatMap]
      rcases List.mem_cons.1 h with h | h
      · subst h
        exact buildCatMap_hasField_mono sm rest (idx + 1) _ opt
          (hasField_setFieldList_self _ _ _)
      · exact ih (idx + 1) _ opt h

/-- `buildCatMap` leaves a key it never assigns untouched. -/
theorem buildCatMap_lookup_frozen (sm : List (String × JSVal)) (opts : List String) :
    ∀ (idx : ℕ) (acc : List (String × JSVal)) (k : String), k ∉ opts →
    lookupField (buildCatMap sm opts idx acc) k = lookupField acc k := by
  induction opts with
  | nil => intro idx acc k _; rfl
  | cons o rest ih =>
      intro idx acc k hk
      have hne : o ≠ k := by
        intro h
        subst h
        exact hk (List.mem_cons_self _ _)
      rw [buildCatMap, ih (idx + 1) _ k (fun h => hk (List.mem_cons_of_mem _ h)),
        lookupField_setFieldList_ne _ _ _ _ hne]

/-- For duplicate-free options, the built map binds the `i`-th option
to the value `options.forEach` assigns at index `idx + i`. -/
theorem buildCatMap_lookup_get (sm : List (String × JSVal)) (opts : List String)
    (hnd : opts.Nodup) :
    ∀ (idx : ℕ) (acc : List (String × JSVal)) (i : ℕ) (h : i < opts.length),
    lookupField (buildCatMap sm opts idx acc) (opts.get ⟨i, h⟩)
      = catMapValue sm (opts.get ⟨i, h⟩) (idx + i) := by
  induction opts with
  | nil => intro idx acc i h; simp at h
  | cons o rest ih =>
      intro idx acc i h
      match i with
      | 0 =>
          rw [buildCatMap]
          have hnotin : o ∉ rest := (List.nodup_cons.1 hnd).1
          simp only [List.get]
          rw [buildCatMap_lookup_frozen sm rest (idx + 1) _ o hnotin,
            lookupField_setFieldList_self, Nat.add_zero]
      | i + 1 =>
          rw [buildCatMap]
          simp only [List.get]
          rw [ih (List.nodup_cons.1 hnd).2 (idx + 1) _ i (by simpa using h)]
          congr 1
          omega

/-- For every option in the list — duplicates included — the built map
binds it to the value `forEach` assigns at its last occurrence index:
later assignments to the same JS object key overwrite earlier ones. -/
theorem buildCatMap_lookup_last (sm : List (String × JSVal)) (opts : List String) :
    ∀ (idx : ℕ) (acc : List (String × JSVal)) (opt : String), opt ∈ opts →
    ∃ i, ∃ h : i < opts.length, opts.get ⟨i, h⟩ = opt
      ∧ (∀ (j : ℕ) (hj : j < opts.length), i < j → opts.get ⟨j, hj⟩ ≠ opt)
      ∧ lookupField (buildCatMap sm opts idx acc) opt = catMapValue sm opt (idx + i) := by
  induction opts with
  | nil => intro idx acc opt h; simp at h
  | cons o rest ih =>
      intro idx acc opt hmem
      by_cases hr : opt ∈ rest
      · obtain ⟨i, h, hget, hlast, hlook⟩ :=
          ih (idx + 1) (setFieldList acc o (catMapValue sm o idx)) opt hr
        refine ⟨i + 1, Nat.succ_lt_succ h, hget, ?_, ?_⟩
        · intro j hj hij
          match j, hj with
          | j + 1, hj =>
              intro heq
              exact hlast j (Nat.lt_of_succ_lt_succ hj) (Nat.lt_of_succ_lt_succ hij) heq
        · rw [buildCatMap, hlook]
          congr 1
          omega
      · have ho : opt = o := by
          rcases List.mem_cons.1 hmem with h | h
          · exact h
          · exact absurd h hr
        subst ho
        refine ⟨0, Nat.succ_pos _, rfl, ?_, ?_⟩
        · intro j hj hij
          match j, hj with
          | j + 1, hj =>
              intro heq
              exact hr (heq ▸ List.get_mem rest _ _)
        · rw [buildCatMap, buildCatMap_lookup_frozen sm rest (idx + 1) _ opt hr,
            lookupField_setFieldList_self, Nat.add_zero]

/-- No element of the normalised option list is the empty string. -/
theorem normOptions_ne_empty (info fallbackValue : JSVal) :
    ∀ s ∈ normOptions info fallbackValue, s ≠ "" := by
  intro s hs
  unfold normOptions at hs
  split at hs
  · next hcond =>
      rw [List.mem_singleton] at hs
      subst hs
      exact hcond.2
  · unfold normOptionsRaw at hs
    simpa using (List.mem_filter.1 hs).2

/-- When the option list is non-empty, the normalised current value is
one of the options. -/
theorem normValue_mem (info fallbackValue : JSVal)
    (h : normOptions info fallbackValue ≠ []) :
    normValue info fallbackValue ∈ normOptions info fallbackValue := by
  unfold normValue
  dsimp only
  split
  · next hcont => simpa using hcont
  · split
    · next o rest heq =>
        rw [heq]
        have ho : o ≠ "" := normOptions_ne_empty info fallbackValue o (heq ▸ List.mem_cons_self _ _)
        rw [if_pos ho]
        exact List.mem_cons_self _ _
    · next heq => exact absurd heq h

/-! ## Claims about metadata normalisation and migration -/

/-- C8 (amended): for every categorical metadata input — duplicated
option labels included — the normalised metadata keeps the component
invariant: the current value is one of the options whenever the option
list is non-empty, and the map has an entry for every option. Each
option's entry is what `forEach` writes at the option's last occurrence
index `i` (the unique ordinal index when labels are distinct): the
ordinal index `i` itself when the source map has no entry for the
option; the parsed number when the source entry parses numerically;
and — contrary to the frozen claim — the raw source entry when it does
not parse (see the counterexample). -/
theorem normalizeCategoryMeta_invariant (info fallbackValue : JSVal) (n : CategoryMeta)
    (hn : n = normalizeCategoryMeta info fallbackValue) :
    (n.options ≠ [] → n.value ∈ n.options)
      ∧ (∀ opt ∈ n.options, hasField n.map opt = true)
      ∧ (∀ opt ∈ n.options, ∃ i, ∃ h : i < n.options.length,
          n.options.get ⟨i, h⟩ = opt
          ∧ (∀ (j : ℕ) (hj : j < n.options.length), i < j → n.options.get ⟨j, hj⟩ ≠ opt)
          ∧ (hasField (sourceMapOf info) opt = false →
              lookupField n.map opt = .num (.num i))
          ∧ (∀ q : ℚ, hasField (sourceMapOf info) opt = true →
              parseNumberish (lookupField (sourceMapOf info) opt) = some q →
              lookupField n.map opt = .num (.num q))
          ∧ (hasField (sourceMapOf info) opt = true →
              parseNumberish (lookupField (sourceMapOf info) opt) = none →
              lookupField n.map opt = lookupField (sourceMapOf info) opt)) := by
  subst hn
  simp only [normalizeCategoryMeta]
  refine ⟨?_, ?_, ?_⟩
  · intro h
    exact normValue_mem info fallbackValue h
  · intro opt hopt
    exact buildCatMap_hasField_of_mem (sourceMapOf info) _ 0 [] opt hopt
  · intro opt hopt
    obtain ⟨i, h, hget, hlast, hlook⟩ :=
      buildCatMap_lookup_last (sourceMapOf info) (normOptions info fallbackValue) 0 [] opt hopt
    rw [Nat.zero_add] at hlook
    refine ⟨i, h, hget, hlast, ?_, ?_, ?_⟩
    · intro hmiss
      rw [hlook]
      unfold catMapValue
      rw [if_neg (by simp [hmiss])]
    · intro q hhas hq
      rw [hlook]
      unfold catMapValue
      rw [if_pos (by simp [hhas]), hq]
    · intro hhas hq
      rw [hlook]
      unfold catMapValue
      rw [if_pos (by simp [hhas]), hq]

/-- C8 witness: two options, no source map — the value is among the
options, both options are covered, each occurs last at its own index
and falls back to its ordinal index there. -/
theorem normalizeCategoryMeta_invariant_witness :
    ((normalizeCategoryMeta plainCatInfo .undefined).options ≠ []
        → (normalizeCategoryMeta plainCatInfo .undefined).value
            ∈ (normalizeCategoryMeta plainCatInfo .undefined).options)
      ∧ (∀ opt ∈ (normalizeCategoryMeta plainCatInfo .undefined).options,
          hasField (normalizeCategoryMeta plainCatInfo .undefined).map opt = true)
      ∧ (∀ opt ∈ (normalizeCategoryMeta plainCatInfo .undefined).options,
          ∃ i, ∃ h : i < (normalizeCategoryMeta plainCatInfo .undefined).options.length,
          (normalizeCategoryMeta plainCatInfo .undefined).options.get ⟨i, h⟩ = opt
          ∧ (∀ (j : ℕ)
              (hj : j < (normalizeCategoryMeta plainCatInfo .undefined).options.length),
              i < j →
              (normalizeCategoryMeta plainCatInfo .undefined).options.get ⟨j, hj⟩ ≠ opt)
          ∧ (hasField (sourceMapOf plainCatInfo) opt = false →
              lookupField (normalizeCategoryMeta plainCatInfo .undefined).map opt
                = .num (.num i))
          ∧ (∀ q : ℚ, hasField (sourceMapOf plainCatInfo) opt = true →
              parseNumberish (lookupField (sourceMapOf plainCatInfo) opt) = some q →
              lookupField (normalizeCategoryMeta plainCatInfo .undefined).map opt
                = .num (.num q))
          ∧ (hasField (sourceMapOf plainCatInfo) opt = true →
              parseNumberish (lookupField (sourceMapOf plainCatInfo) opt) = none →
              lookupField (normalizeCategoryMeta plainCatInfo .undefined).map opt
                = lookupField (sourceMapOf plainCatInfo) opt)) :=
  normalizeCategoryMeta_invariant plainCatInfo .undefined _ rfl

/-- C8 counterexample: a source-map entry that does not parse as a
number is kept raw — option `"a"` maps to the string `"xyz"`, not to
its ordinal index `0` as the frozen claim states. -/
theorem normalizeCategoryMeta_raw_map_cex :
    lookupField (normalizeCategoryMeta rawMapInfo .undefined).map "a" = .str "xyz"
      ∧ JSVal.str "xyz" ≠ JSVal.num (.num 0) :=
  ⟨rfl, by simp⟩

/-- C9 (spec-modelled): migration is idempotent — whatever
`migrateIncomingConfig` accepts it maps to a document it thereafter
returns unchanged, and an already-current document is returned
unchanged. -/
theorem migrateIncomingConfig_idempotent (x y : ConfigDoc)
    (h : migrateIncomingConfig x = .ok y) :
    migrateIncomingConfig y = .ok y
      ∧ (x.version = "PlaygroundConfigV2" → y = x) := by
  unfold migrateIncomingConfig at h ⊢
  by_cases h2 : x.version = "PlaygroundConfigV2"
  · rw [if_pos h2] at h
    rw [Except.ok.injEq] at h
    subst h
    rw [if_pos h2]
    exact ⟨rfl, fun _ => rfl⟩
  · rw [if_neg h2] at h
    by_cases h3 : x.version = "PlaygroundConfigV1"
    · rw [if_pos h3] at h
      rw [Except.ok.injEq] at h
      subst h
      exact ⟨rfl, fun hv => absurd hv h2⟩
    · rw [if_neg h3] at h
      exact absurd h (by simp)

/-- C9 witness: the migrated form of a concrete V1 document is a fixed
point of migration. -/
theorem migrateIncomingConfig_idempotent_witness :
    migrateIncomingConfig v1Migrated = .ok v1Migrated
      ∧ (v1Doc.version = "PlaygroundConfigV2" → v1Migrated = v1Doc) :=
  migrateIncomingConfig_idempotent v1Doc v1Migrated rfl
